import Mathlib

/-!
Shallow embedding of Vivy-Components (src/vivy_types.py, src/vivy_parse.py):
a typed model of Vivy materials, the JSON-tree → model decoder, the
model → JSON-tree encoder, and the base-material resolution query, together
with proofs about them.

JSON values are modelled by `JVal` (strings, objects as ordered association
lists — Python dicts are insertion-ordered — and arrays).  Python's raising
of `KeyError` / `TypeError` on dictionary indexing is modelled by computations
in `Except PyErr`.
-/

/-- A parsed JSON-like value as handled by the Python code: a string leaf,
an object (Python `dict`, insertion-ordered, modelled as an association
list), or an array (Python `list`).  The document grammar of the Vivy format
has only string leaves, so `null`, numbers and booleans are not needed. -/
inductive JVal where
  | s : String → JVal
  | o : List (String × JVal) → JVal
  | a : List JVal → JVal
deriving Repr

mutual

/-- Boolean equality on JSON values (hand-rolled: automatic deriving does not
support this nested inductive). -/
def JVal.beq : JVal → JVal → Bool
  | .s x, .s y => x == y
  | .o x, .o y => JVal.beqFields x y
  | .a x, .a y => JVal.beqItems x y
  | _, _ => false

/-- Boolean equality on object field lists. -/
def JVal.beqFields : List (String × JVal) → List (String × JVal) → Bool
  | [], [] => true
  | (k₁, v₁) :: t₁, (k₂, v₂) :: t₂ => k₁ == k₂ && JVal.beq v₁ v₂ && JVal.beqFields t₁ t₂
  | _, _ => false

/-- Boolean equality on array element lists. -/
def JVal.beqItems : List JVal → List JVal → Bool
  | [], [] => true
  | x :: t₁, y :: t₂ => JVal.beq x y && JVal.beqItems t₁ t₂
  | _, _ => false

end

mutual

def JVal.beq_iff : ∀ (a b : JVal), JVal.beq a b = true ↔ a = b
  | .s x, .s y => by simp [JVal.beq]
  | .o x, .o y => by simp [JVal.beq, JVal.beqFields_iff x y]
  | .a x, .a y => by simp [JVal.beq, JVal.beqItems_iff x y]
  | .s _, .o _ => by simp [JVal.beq]
  | .s _, .a _ => by simp [JVal.beq]
  | .o _, .s _ => by simp [JVal.beq]
  | .o _, .a _ => by simp [JVal.beq]
  | .a _, .s _ => by simp [JVal.beq]
  | .a _, .o _ => by simp [JVal.beq]

def JVal.beqFields_iff : ∀ (a b : List (String × JVal)), JVal.beqFields a b = true ↔ a = b
  | [], [] => by simp [JVal.beqFields]
  | (k₁, v₁) :: t₁, (k₂, v₂) :: t₂ => by
    simp [JVal.beqFields, JVal.beq_iff v₁ v₂, JVal.beqFields_iff t₁ t₂, and_assoc]
  | [], (_, _) :: _ => by simp [JVal.beqFields]
  | (_, _) :: _, [] => by simp [JVal.beqFields]

def JVal.beqItems_iff : ∀ (a b : List JVal), JVal.beqItems a b = true ↔ a = b
  | [], [] => by simp [JVal.beqItems]
  | x :: t₁, y :: t₂ => by
    simp [JVal.beqItems, JVal.beq_iff x y, JVal.beqItems_iff t₁ t₂]
  | [], _ :: _ => by simp [JVal.beqItems]
  | _ :: _, [] => by simp [JVal.beqItems]

end

instance : DecidableEq JVal := fun a b => decidable_of_iff _ (JVal.beq_iff a b)

/-- Python dictionary lookup on an association list: the value under the
first matching key, if any. -/
def jlookup (l : List (String × JVal)) (k : String) : Option JVal :=
  (l.find? (fun p => p.1 == k)).map Prod.snd

/-- Python `k in d` on a dictionary: is the key present?  (The decoder only
ever evaluates a containment test on a value that is a dictionary; for a
non-dictionary the result is irrelevant to every reachable path.) -/
def jcontains (v : JVal) (k : String) : Bool :=
  match v with
  | .o fs => (jlookup fs k).isSome
  | _ => false

/-- Errors a Python dictionary access can raise: `KeyError(k)` for a missing
key, `TypeError` for indexing a non-dictionary with a string. -/
inductive PyErr where
  | keyError (k : String)
  | typeError
deriving DecidableEq, Repr

deriving instance DecidableEq for Except

/-- Python `v[k]` for a string key `k`: the value under `k` when `v` is a
dictionary containing `k`; `KeyError(k)` when `v` is a dictionary without
`k`; `TypeError` when `v` is a string or a list (string indices must be
strings resp. integers). -/
def getItem (v : JVal) (k : String) : Except PyErr JVal :=
  match v with
  | .o fs =>
    match jlookup fs k with
    | some x => .ok x
    | none => .error (.keyError k)
  | _ => .error .typeError

/-! ### The typed model (src/vivy_types.py)

The Python dataclasses store whatever runtime value the source dictionary
held (the `str` annotations are not enforced), so the string-typed slots are
modelled as `JVal`.  `Optional[...]` fields are `Option`s; Python's `None`
is `none`. -/

/-- Model of `VivyPasses` (vivy_types.py lines 162-171): the passes of a material.
`diffuse` is required; `specular` and `normal` are optional. -/
structure VivyPasses where
  diffuse : JVal
  specular : Option JVal
  normal : Option JVal
deriving DecidableEq, Repr

/-- Model of `VivyRefinements` (vivy_types.py lines 193-207): seven optional
refinement slots, in the dataclass's declaration order. -/
structure VivyRefinements where
  emissive : Option JVal
  reflective : Option JVal
  metallic : Option JVal
  glass : Option JVal
  fallback_n : Option JVal
  fallback_s : Option JVal
  fallback : Option JVal
deriving DecidableEq, Repr

/-- Model of `VivyMaterial` (vivy_types.py lines 229-252): a full material;
`refinements` is optional as a whole. -/
structure VivyMaterial where
  base_material : JVal
  desc : JVal
  passes : VivyPasses
  refinements : Option VivyRefinements
deriving DecidableEq, Repr

/-- Model of `VivyMapping` (vivy_types.py lines 279-294): one mapping entry;
`refinement` is optional. -/
structure VivyMapping where
  material : JVal
  refinement : Option JVal
deriving DecidableEq, Repr

/-- Model of `VivyData` (vivy_types.py lines 316-332): the whole document.  Python
dicts are insertion-ordered, so both tables are ordered association lists. -/
structure VivyData where
  materials : List (String × VivyMaterial)
  mapping : List (String × List VivyMapping)
deriving DecidableEq, Repr

/-! ### Encoding (the dump_json methods of vivy_types.py)

`VivyPasses.dump_json`, `VivyRefinements.dump_json` and
`VivyMapping.dump_json` build a dict by iterating the dataclass fields in
declaration order and keeping those whose value `is not None`; `optDump`
is that filter for one optional field. -/

/-- One step of the dump-comprehension `{f.name: v ... if v is not None}`:
the field's singleton entry when present, nothing when absent. -/
def optDump (k : String) : Option JVal → List (String × JVal)
  | some v => [(k, v)]
  | none => []

/-- Embedding of `VivyPasses.dump_json` (vivy_types.py lines 173-190).  `diffuse` holds a
value (never Python `None`), so its entry is always emitted. -/
def VivyPasses.dump_json (p : VivyPasses) : List (String × JVal) :=
  ("diffuse", p.diffuse) :: (optDump "specular" p.specular ++ optDump "normal" p.normal)

/-- Embedding of `VivyRefinements.dump_json` (vivy_types.py lines 209-226), fields in
declaration order (`fallback_n` before `fallback_s`). -/
def VivyRefinements.dump_json (r : VivyRefinements) : List (String × JVal) :=
  optDump "emissive" r.emissive ++ optDump "reflective" r.reflective ++
  optDump "metallic" r.metallic ++ optDump "glass" r.glass ++
  optDump "fallback_n" r.fallback_n ++ optDump "fallback_s" r.fallback_s ++
  optDump "fallback" r.fallback

/-- Embedding of `VivyMaterial.dump_json` (vivy_types.py lines 254-276): the three
required entries, then `refinements` only when present. -/
def VivyMaterial.dump_json (m : VivyMaterial) : List (String × JVal) :=
  [("base_material", m.base_material), ("desc", m.desc),
   ("passes", JVal.o m.passes.dump_json)] ++
  (match m.refinements with
   | some r => [("refinements", JVal.o r.dump_json)]
   | none => [])

/-- Embedding of `VivyMapping.dump_json` (vivy_types.py lines 296-313).  `material` holds
a value (never Python `None`), so its entry is always emitted. -/
def VivyMapping.dump_json (mp : VivyMapping) : List (String × JVal) :=
  ("material", mp.material) :: optDump "refinement" mp.refinement

/-- Embedding of `VivyData.dump_json` (vivy_types.py lines 334-347): rebuild the two
top-level tables by dumping every entry in stored (insertion) order. -/
def VivyData.dump_json (d : VivyData) : List (String × JVal) :=
  [("materials", JVal.o (d.materials.map (fun p => (p.1, JVal.o p.2.dump_json)))),
   ("mapping", JVal.o (d.mapping.map
      (fun p => (p.1, JVal.a (p.2.map (fun mp => JVal.o mp.dump_json))))))]

/-! ### Decoding (src/vivy_parse.py)

The decoder follows the source expression by expression, in Python's
left-to-right evaluation order, with every dictionary access going through
`getItem` / `jcontains` so that `KeyError` / `TypeError` propagate exactly
as raised exceptions do. -/

/-- The per-material body of `read_vivy_materials` (vivy_parse.py lines
47-98): build one `VivyMaterial` from the dictionary stored under one
materials key.  Note the source's misspelled presence check for the
`reflective` refinement: it tests the key `"reflecive"` but reads the key
`"reflective"` (vivy_parse.py lines 66-70); the embedding reproduces this. -/
def read_vivy_material (md : JVal) : Except PyErr VivyMaterial := do
  let base_material ← getItem md "base_material"
  let desc ← getItem md "desc"
  let pobj ← getItem md "passes"
  let diffuse ← getItem pobj "diffuse"
  let specular ← if jcontains pobj "specular" then some <$> getItem pobj "specular" else pure none
  let normal ← if jcontains pobj "normal" then some <$> getItem pobj "normal" else pure none
  let refinements ←
    if !jcontains md "refinements" then pure none
    else do
      let robj ← getItem md "refinements"
      let emissive ←
        if jcontains robj "emissive" then some <$> getItem robj "emissive" else pure none
      let reflective ←
        if jcontains robj "reflecive" then some <$> getItem robj "reflective" else pure none
      let metallic ←
        if jcontains robj "metallic" then some <$> getItem robj "metallic" else pure none
      let glass ←
        if jcontains robj "glass" then some <$> getItem robj "glass" else pure none
      let fallback_s ←
        if jcontains robj "fallback_s" then some <$> getItem robj "fallback_s" else pure none
      let fallback_n ←
        if jcontains robj "fallback_n" then some <$> getItem robj "fallback_n" else pure none
      let fallback ←
        if jcontains robj "fallback" then some <$> getItem robj "fallback" else pure none
      pure (some { emissive, reflective, metallic, glass, fallback_n, fallback_s, fallback })
  pure { base_material, desc, passes := { diffuse, specular, normal }, refinements }

/-- Embedding of `read_vivy_materials` (vivy_parse.py lines 36-100): decode every entry of
the materials table, in stored order.  The Python function iterates the keys
of its dictionary argument; a non-dictionary argument is out of the
document's shape and is reported as a `TypeError`. -/
def read_vivy_materials (v : JVal) : Except PyErr (List (String × VivyMaterial)) :=
  match v with
  | .o fs => fs.mapM (fun p => do pure (p.1, ← read_vivy_material p.2))
  | _ => .error .typeError

/-- The per-entry body of `read_vivy_mappings` (vivy_parse.py lines
115-118): build one `VivyMapping` from one element of a mapping's array. -/
def read_vivy_mapping (m : JVal) : Except PyErr VivyMapping := do
  let material ← getItem m "material"
  let refinement ← if jcontains m "refinement" then some <$> getItem m "refinement" else pure none
  pure { material, refinement }

/-- Embedding of `read_vivy_mappings` (vivy_parse.py lines 102-119): decode every entry
list of the mapping table; each list's elements are decoded in source order
(the Python loop appends to `final_dict[mat]` element by element).  As with
`read_vivy_materials`, values outside the document's shape (a table or an
entry list that is not a dict resp. list) are reported as a `TypeError`. -/
def read_vivy_mappings (v : JVal) : Except PyErr (List (String × List VivyMapping)) :=
  match v with
  | .o fs => fs.mapM (fun p => do
      match p.2 with
      | .a items => do pure (p.1, ← items.mapM read_vivy_mapping)
      | _ => .error .typeError)
  | _ => .error .typeError

/-- Embedding of `dict_to_vivy_data` (vivy_parse.py lines 121-134): decode the whole
document.  Python evaluates the `materials=` argument (index, then
`read_vivy_materials`) before the `mapping=` argument. -/
def dict_to_vivy_data (raw : JVal) : Except PyErr VivyData := do
  let msec ← getItem raw "materials"
  let materials ← read_vivy_materials msec
  let psec ← getItem raw "mapping"
  let mapping ← read_vivy_mappings psec
  pure { materials, mapping }

/-! ### Resolution (`VivyData.base_to_vivy`, vivy_types.py lines 349-368) -/

/-- Python `d[k]` on a model-level dictionary with string keys: the stored
value, or `KeyError(k)`. -/
def dictGet {α : Type} (l : List (String × α)) (k : String) : Except PyErr α :=
  match l.find? (fun p => p.1 == k) with
  | some p => .ok p.2
  | none => .error (.keyError k)

/-- Python `self.materials[m.material]`: the `materials` dict has string
keys, so a string `m.material` is looked up (raising `KeyError` when
absent); a dict or list key is unhashable and raises `TypeError`. -/
def lookupMaterial (mats : List (String × VivyMaterial)) (k : JVal) :
    Except PyErr VivyMaterial :=
  match k with
  | .s key => dictGet mats key
  | _ => .error .typeError

/-- The loop of `base_to_vivy` (vivy_types.py lines 365-368): return the
material of the first entry whose `refinement` is `None`; `None` when the
list is exhausted. -/
def findBase (mats : List (String × VivyMaterial)) :
    List VivyMapping → Except PyErr (Option VivyMaterial)
  | [] => .ok none
  | m :: rest =>
    if m.refinement.isNone then some <$> lookupMaterial mats m.material
    else findBase mats rest

/-- Embedding of `VivyData.base_to_vivy` (vivy_types.py lines 349-368): look up the
external name in `mapping` (a `KeyError` when absent), then scan its entry
list for the first unrefined entry. -/
def VivyData.base_to_vivy (d : VivyData) (name : String) :
    Except PyErr (Option VivyMaterial) := do
  let mapping_list ← dictGet d.mapping name
  findBase d.materials mapping_list

/-! ### The sample document (spec §8 / test/data.py `DATA_JSON`) -/

/-- The concrete document used by the repository's tests. -/
def sampleDoc : JVal :=
  .o [("materials", .o
        [("PBR", .o
           [("base_material", .s "PBR"), ("desc", .s "PBR material"),
            ("passes", .o [("diffuse", .s "Diffuse"), ("normal", .s "Normal"),
                           ("specular", .s "Specular")]),
            ("refinements", .o [("emissive", .s "BPR_Emit"), ("fallback", .s "Simple")])]),
         ("Simple", .o
           [("base_material", .s "Simple"), ("desc", .s "Simple Material"),
            ("passes", .o [("diffuse", .s "Diffuse")])])]),
      ("mapping", .o
        [("PBR", .a [.o [("material", .s "PBR")]]),
         ("Simple", .a [.o [("material", .s "Simple")],
                        .o [("material", .s "PBR"), ("refinement", .s "fallback")]]),
         ("BPR_Emit", .a [.o [("material", .s "PBR"), ("refinement", .s "emissive")]])])]


/-! ### Small concrete values used by witnesses and counterexamples -/

/-- A document holding one material whose `reflective` refinement is
present. -/
def dRefl : VivyData :=
  ⟨[("A", ⟨.s "A", .s "d", ⟨.s "D", none, none⟩,
      some ⟨none, some (.s "X"), none, none, none, none, none⟩⟩)], []⟩

/-- The same document with the `reflective` refinement absent. -/
def dReflDropped : VivyData :=
  ⟨[("A", ⟨.s "A", .s "d", ⟨.s "D", none, none⟩,
      some ⟨none, none, none, none, none, none, none⟩⟩)], []⟩

/-- A two-element mapping entry array (JSON side). -/
def wItems : List JVal :=
  [.o [("material", .s "A")], .o [("material", .s "B"), ("refinement", .s "f")]]

/-- The decoded form of `wItems`. -/
def wEntries : List VivyMapping := [⟨.s "A", none⟩, ⟨.s "B", some (.s "f")⟩]

/-- A one-name mapping table (JSON side) around `wItems`. -/
def wMaps : List (String × JVal) := [("S", .a wItems)]

/-- The decoded form of `wMaps`. -/
def wRes : List (String × List VivyMapping) := [("S", wEntries)]

/-- A document holding `wEntries` under the name `"S"`. -/
def wData : VivyData := ⟨[], [("S", wEntries)]⟩

/-! ### Basic lemmas about the dictionary and error primitives -/

theorem jlookup_nil (k : String) : jlookup [] k = none := rfl

theorem jlookup_cons (a : String × JVal) (t : List (String × JVal)) (k : String) :
    jlookup (a :: t) k = if a.1 == k then some a.2 else jlookup t k := by
  simp only [jlookup, List.find?]
  cases h : (a.1 == k) <;> simp [h]

theorem jlookup_append (l₁ l₂ : List (String × JVal)) (k : String) :
    jlookup (l₁ ++ l₂) k = (jlookup l₁ k).or (jlookup l₂ k) := by
  induction l₁ with
  | nil => simp [jlookup]
  | cons a t ih =>
    rw [List.cons_append, jlookup_cons, jlookup_cons]
    by_cases h : a.1 == k <;> simp [h, ih]

theorem jlookup_optDump (k k' : String) (v : Option JVal) :
    jlookup (optDump k v) k' = if k == k' then v else none := by
  cases v <;> by_cases h : (k == k') <;>
    simp_all [optDump, jlookup, jlookup_cons]

theorem bindE_ok {α β : Type} (a : α) (f : α → Except PyErr β) :
    (Except.ok a >>= f) = f a := rfl

theorem bindE_error {α β : Type} (e : PyErr) (f : α → Except PyErr β) :
    ((Except.error e : Except PyErr α) >>= f) = .error e := rfl

theorem not_ok_iff_error {α : Type} (x : Except PyErr α) :
    (∀ y, x ≠ .ok y) ↔ ∃ e, x = .error e := by
  cases x <;> simp

/-- If one list element fails to decode, the monadic map over the list does
not succeed. -/
theorem mapM_not_ok {α β : Type} (f : α → Except PyErr β) (l : List α) (x : α)
    (hx : x ∈ l) (hfx : ∀ y, f x ≠ .ok y) :
    ∀ res, l.mapM f ≠ .ok res := by
  induction l with
  | nil => cases hx
  | cons a t ih =>
    intro res h
    rw [List.mapM_cons] at h
    cases hfa : f a with
    | error e => rw [hfa] at h; exact absurd h (by simp [bindE_error])
    | ok b =>
      rw [hfa, bindE_ok] at h
      cases ht : t.mapM f with
      | error e => rw [ht] at h; exact absurd h (by simp [bindE_error])
      | ok bs =>
        rcases List.mem_cons.mp hx with rfl | hxt
        · exact hfx b hfa
        · exact ih hxt bs ht

/-- A successful monadic map decodes pointwise, in order. -/
theorem mapM_ok_pointwise {α β : Type} (f : α → Except PyErr β) :
    ∀ (l : List α) (res : List β), l.mapM f = .ok res →
      res.length = l.length ∧
      ∀ i (h₁ : i < l.length) (h₂ : i < res.length),
        f (l.get ⟨i, h₁⟩) = .ok (res.get ⟨i, h₂⟩) := by
  intro l
  induction l with
  | nil => intro res h; rw [List.mapM_nil] at h; cases h; simp
  | cons a t ih =>
    intro res h
    rw [List.mapM_cons] at h
    cases hfa : f a with
    | error e => rw [hfa, bindE_error] at h; cases h
    | ok b =>
      rw [hfa, bindE_ok] at h
      cases ht : t.mapM f with
      | error e => rw [ht, bindE_error] at h; cases h
      | ok bs =>
        rw [ht, bindE_ok] at h
        cases h
        obtain ⟨hlen, hpt⟩ := ih bs ht
        refine ⟨by simp [hlen], ?_⟩
        intro i h₁ h₂
        cases i with
        | zero => simpa using hfa
        | succ j =>
          simp only [List.length_cons] at h₁ h₂
          simpa using hpt j (by omega) (by omega)

/-! ### Lemmas about `base_to_vivy` -/

theorem findBase_append_refined (mats : List (String × VivyMaterial))
    (pre rest : List VivyMapping) (hpre : ∀ x ∈ pre, x.refinement ≠ none) :
    findBase mats (pre ++ rest) = findBase mats rest := by
  induction pre with
  | nil => rfl
  | cons x t ih =>
    have hx : x.refinement.isNone = false := by
      cases hr : x.refinement
      · exact absurd hr (hpre x (by simp))
      · rfl
    rw [List.cons_append]
    simp only [findBase, hx, Bool.false_eq_true, if_false]
    exact ih (fun y hy => hpre y (List.mem_cons_of_mem _ hy))

theorem dictGet_eq_error {α : Type} (l : List (String × α)) (k : String)
    (h : ∀ p ∈ l, p.1 ≠ k) : dictGet l k = .error (.keyError k) := by
  have hf : l.find? (fun p => p.1 == k) = none :=
    List.find?_eq_none.mpr (fun p hp => by simpa using h p hp)
  simp [dictGet, hf]

/-- C4: first-match resolution.  For every document `d` and external name
whose entry list splits as a prefix of refined entries, then a first
unrefined entry `e`, then anything, `base_to_vivy` returns exactly the
material stored under `e.material` in the materials table — independent of
`e`'s position and of any later unrefined entries. -/
theorem base_to_vivy_first_match (d : VivyData) (name : String)
    (pre post : List VivyMapping) (e : VivyMapping) (M : VivyMaterial)
    (hlook : dictGet d.mapping name = .ok (pre ++ e :: post))
    (hpre : ∀ x ∈ pre, x.refinement ≠ none)
    (he : e.refinement = none)
    (hmat : lookupMaterial d.materials e.material = .ok M) :
    d.base_to_vivy name = .ok (some M) := by
  simp only [VivyData.base_to_vivy, hlook, bindE_ok]
  rw [findBase_append_refined _ _ _ hpre]
  simp [findBase, he, hmat]

/-- Witness for C4, the spec §8 scenario: over the entry list
`[{material: M, refinement: "fallback"}, {material: M}]` the unrefined
second entry wins. -/
theorem base_to_vivy_first_match_witness :
    VivyData.base_to_vivy
      ⟨[("M", ⟨.s "M", .s "d", ⟨.s "D", none, none⟩, none⟩)],
       [("Ext", [⟨.s "M", some (.s "fallback")⟩, ⟨.s "M", none⟩])]⟩ "Ext"
      = .ok (some ⟨.s "M", .s "d", ⟨.s "D", none, none⟩, none⟩) :=
  base_to_vivy_first_match _ "Ext" [⟨.s "M", some (.s "fallback")⟩] []
    ⟨.s "M", none⟩ _ (by decide) (by decide) rfl (by decide)

/-- C5: a non-empty entry list in which every entry is refined resolves to
the empty "no base mapping" result `none`, not to an error. -/
theorem base_to_vivy_no_base (d : VivyData) (name : String)
    (entries : List VivyMapping)
    (hlook : dictGet d.mapping name = .ok entries)
    (_hne : entries ≠ [])
    (hall : ∀ x ∈ entries, x.refinement ≠ none) :
    d.base_to_vivy name = .ok none := by
  simp only [VivyData.base_to_vivy, hlook, bindE_ok]
  have h := findBase_append_refined d.materials entries [] hall
  rw [List.append_nil] at h
  rw [h]
  rfl

/-- Witness for C5, the spec §8 scenario `[{material: M1, refinement: "x"}]`. -/
theorem base_to_vivy_no_base_witness :
    VivyData.base_to_vivy ⟨[], [("R", [⟨.s "M1", some (.s "x")⟩])]⟩ "R" = .ok none :=
  base_to_vivy_no_base _ "R" [⟨.s "M1", some (.s "x")⟩]
    (by decide) (by decide) (by decide)

/-- C6: resolution errors are reported distinctly.  (i) an external name
absent from `mapping` raises `KeyError(name)`; (ii) a first unrefined entry
whose material key is absent from `materials` raises `KeyError` on that
material key; (iii) no raised error is the silent "no base mapping" result
`.ok none`.  The two error situations are mutually exclusive for a given
call: (i) fires exactly when the name lookup fails, (ii) only after it
succeeds. -/
theorem base_to_vivy_errors (d : VivyData) (name : String) :
    ((∀ p ∈ d.mapping, p.1 ≠ name) →
       d.base_to_vivy name = .error (.keyError name)) ∧
    (∀ (pre post : List VivyMapping) (e : VivyMapping) (k : String),
       dictGet d.mapping name = .ok (pre ++ e :: post) →
       (∀ x ∈ pre, x.refinement ≠ none) →
       e.refinement = none →
       e.material = .s k →
       (∀ q ∈ d.materials, q.1 ≠ k) →
       d.base_to_vivy name = .error (.keyError k)) ∧
    (∀ err : PyErr,
       (Except.error err : Except PyErr (Option VivyMaterial)) ≠ .ok none) := by
  refine ⟨?_, ?_, by simp⟩
  · intro h
    simp [VivyData.base_to_vivy, dictGet_eq_error _ _ h, bindE_error]
  · intro pre post e k hlook hpre he hk hmats
    simp only [VivyData.base_to_vivy, hlook, bindE_ok]
    rw [findBase_append_refined _ _ _ hpre]
    simp [findBase, he, hk, lookupMaterial, dictGet_eq_error _ _ hmats]

/-- Witness for C6: an unknown external name raises `KeyError("zzz")`; a
dangling material reference raises `KeyError("Mat")`. -/
theorem base_to_vivy_errors_witness :
    (VivyData.base_to_vivy ⟨[], []⟩ "zzz" = .error (.keyError "zzz")) ∧
    (VivyData.base_to_vivy ⟨[], [("Ext", [⟨.s "Mat", none⟩])]⟩ "Ext"
       = .error (.keyError "Mat")) :=
  ⟨(base_to_vivy_errors ⟨[], []⟩ "zzz").1 (by decide),
   (base_to_vivy_errors ⟨[], [("Ext", [⟨.s "Mat", none⟩])]⟩ "Ext").2.1
     [] [] ⟨.s "Mat", none⟩ "Mat" (by decide) (by decide) rfl rfl (by decide)⟩

/-- C10: an external name stored with an *empty* entry list resolves to the
empty "no base mapping" result `none`; no error is raised. -/
theorem base_to_vivy_empty_entries (d : VivyData) (name : String)
    (hlook : dictGet d.mapping name = .ok []) :
    d.base_to_vivy name = .ok none := by
  simp only [VivyData.base_to_vivy, hlook, bindE_ok]
  rfl

/-- Witness for C10: a name mapped to the empty list. -/
theorem base_to_vivy_empty_entries_witness :
    VivyData.base_to_vivy ⟨[], [("E", [])]⟩ "E" = .ok none :=
  base_to_vivy_empty_entries _ "E" (by decide)

/-- C7: encode omit-if-absent.  Looking up any required key in a dumped
object always succeeds with the stored value; looking up an optional key
returns exactly the in-memory optional field (`none` when absent — the key
is omitted, never a placeholder).  In particular
`jlookup m.dump_json "refinements" = m.refinements.map ...` makes the
`refinements` key present exactly when the in-memory refinements are
present: an all-absent-but-present `VivyRefinements` still emits the key
(with value `JVal.o []`), and a present empty-string field (for example
`specular = some (JVal.s "")`) is emitted with its key. -/
theorem dump_json_omit_if_absent (m : VivyMaterial) (p : VivyPasses)
    (r : VivyRefinements) (mp : VivyMapping) :
    jlookup m.dump_json "base_material" = some m.base_material ∧
    jlookup m.dump_json "desc" = some m.desc ∧
    jlookup m.dump_json "passes" = some (JVal.o m.passes.dump_json) ∧
    jlookup m.dump_json "refinements"
      = m.refinements.map (fun r' => JVal.o r'.dump_json) ∧
    jlookup p.dump_json "diffuse" = some p.diffuse ∧
    jlookup p.dump_json "specular" = p.specular ∧
    jlookup p.dump_json "normal" = p.normal ∧
    jlookup r.dump_json "emissive" = r.emissive ∧
    jlookup r.dump_json "reflective" = r.reflective ∧
    jlookup r.dump_json "metallic" = r.metallic ∧
    jlookup r.dump_json "glass" = r.glass ∧
    jlookup r.dump_json "fallback_n" = r.fallback_n ∧
    jlookup r.dump_json "fallback_s" = r.fallback_s ∧
    jlookup r.dump_json "fallback" = r.fallback ∧
    jlookup mp.dump_json "material" = some mp.material ∧
    jlookup mp.dump_json "refinement" = mp.refinement := by
  have h4 : jlookup m.dump_json "refinements"
      = m.refinements.map (fun r' => JVal.o r'.dump_json) := by
    rcases hr : m.refinements with _ | r' <;>
      simp [VivyMaterial.dump_json, hr, jlookup_nil, jlookup_cons, jlookup_append,
            jlookup_optDump]
  refine ⟨?_, ?_, ?_, h4, ?_, ?_, ?_, ?_, ?_, ?_, ?_, ?_, ?_, ?_, ?_, ?_⟩ <;>
    simp [VivyMaterial.dump_json, VivyPasses.dump_json, VivyRefinements.dump_json,
          VivyMapping.dump_json, jlookup_cons, jlookup_append, jlookup_optDump,
          Option.none_or, Option.or_none]

/-! ### Decode-failure lemmas -/

/-- A material object missing a required field never decodes successfully. -/
theorem read_vivy_material_missing_required (mdf : List (String × JVal))
    (h : jlookup mdf "base_material" = none ∨ jlookup mdf "desc" = none ∨
         (∃ pf, jlookup mdf "passes" = some (.o pf) ∧ jlookup pf "diffuse" = none)) :
    ∀ y, read_vivy_material (.o mdf) ≠ .ok y := by
  intro y hy
  rcases h with h | h | ⟨pf, hp, hd⟩
  · have hb : getItem (.o mdf) "base_material" = .error (.keyError "base_material") := by
      simp [getItem, h]
    rw [read_vivy_material, hb, bindE_error] at hy
    cases hy
  · cases hb : jlookup mdf "base_material" with
    | none =>
      have : getItem (.o mdf) "base_material" = .error (.keyError "base_material") := by
        simp [getItem, hb]
      rw [read_vivy_material, this, bindE_error] at hy
      cases hy
    | some bv =>
      have hb' : getItem (.o mdf) "base_material" = .ok bv := by simp [getItem, hb]
      have hd' : getItem (.o mdf) "desc" = .error (.keyError "desc") := by
        simp [getItem, h]
      rw [read_vivy_material, hb', bindE_ok, hd', bindE_error] at hy
      cases hy
  · cases hb : jlookup mdf "base_material" with
    | none =>
      have : getItem (.o mdf) "base_material" = .error (.keyError "base_material") := by
        simp [getItem, hb]
      rw [read_vivy_material, this, bindE_error] at hy
      cases hy
    | some bv =>
      have hb' : getItem (.o mdf) "base_material" = .ok bv := by simp [getItem, hb]
      cases hde : jlookup mdf "desc" with
      | none =>
        have : getItem (.o mdf) "desc" = .error (.keyError "desc") := by
          simp [getItem, hde]
        rw [read_vivy_material, hb', bindE_ok, this, bindE_error] at hy
        cases hy
      | some dv =>
        have hd' : getItem (.o mdf) "desc" = .ok dv := by simp [getItem, hde]
        have hp' : getItem (.o mdf) "passes" = .ok (.o pf) := by simp [getItem, hp]
        have hdif : getItem (.o pf) "diffuse" = .error (.keyError "diffuse") := by
          simp [getItem, hd]
        rw [read_vivy_material, hb', bindE_ok, hd', bindE_ok, hp', bindE_ok, hdif,
            bindE_error] at hy
        cases hy

/-- A mapping entry object missing its required `material` key never decodes
successfully. -/
theorem read_vivy_mapping_missing (itf : List (String × JVal))
    (h : jlookup itf "material" = none) :
    ∀ y, read_vivy_mapping (.o itf) ≠ .ok y := by
  intro y hy
  have hm : getItem (.o itf) "material" = .error (.keyError "material") := by
    simp [getItem, h]
  rw [read_vivy_mapping, hm, bindE_error] at hy
  cases hy

/-- A materials table containing a bad material object never decodes
successfully. -/
theorem read_vivy_materials_not_ok (mats : List (String × JVal)) (k : String)
    (mdf : List (String × JVal)) (hmem : (k, JVal.o mdf) ∈ mats)
    (hbad : jlookup mdf "base_material" = none ∨ jlookup mdf "desc" = none ∨
            (∃ pf, jlookup mdf "passes" = some (.o pf) ∧ jlookup pf "diffuse" = none)) :
    ∀ res, read_vivy_materials (.o mats) ≠ .ok res := by
  intro res h
  rw [read_vivy_materials] at h
  refine mapM_not_ok _ mats (k, .o mdf) hmem ?_ res h
  intro y hy
  cases hr : read_vivy_material (.o mdf) with
  | error e =>
    change (read_vivy_material (.o mdf) >>= fun a => pure ((k, JVal.o mdf).1, a))
        = Except.ok y at hy
    rw [hr, bindE_error] at hy
    cases hy
  | ok m => exact read_vivy_material_missing_required mdf hbad m hr

/-- A mapping table containing an entry object with no `material` key never
decodes successfully. -/
theorem read_vivy_mappings_not_ok (maps : List (String × JVal)) (k : String)
    (items : List JVal) (itf : List (String × JVal))
    (hmem : (k, JVal.a items) ∈ maps) (hitem : JVal.o itf ∈ items)
    (hmissing : jlookup itf "material" = none) :
    ∀ res, read_vivy_mappings (.o maps) ≠ .ok res := by
  intro res h
  rw [read_vivy_mappings] at h
  refine mapM_not_ok _ maps (k, .a items) hmem ?_ res h
  intro y hy
  change (items.mapM read_vivy_mapping >>= fun l => pure ((k, JVal.a items).1, l))
      = Except.ok y at hy
  cases hl : items.mapM read_vivy_mapping with
  | error e =>
    rw [hl, bindE_error] at hy
    cases hy
  | ok l =>
    exact mapM_not_ok _ items (.o itf) hitem (read_vivy_mapping_missing itf hmissing) l hl

/-- C8: all-or-nothing decode.  If any material object in the document's
materials table lacks `base_material`, `desc`, or (with `passes` an object)
`passes.diffuse`, or any mapping entry object lacks `material`, then the
whole-document decode fails with an error — no partial or defaulted
document is returned. -/
theorem dict_to_vivy_data_missing_required
    (rawFields mats maps : List (String × JVal))
    (hm : jlookup rawFields "materials" = some (.o mats))
    (hp : jlookup rawFields "mapping" = some (.o maps))
    (hbad :
      (∃ k mdf, (k, JVal.o mdf) ∈ mats ∧
        (jlookup mdf "base_material" = none ∨ jlookup mdf "desc" = none ∨
         (∃ pf, jlookup mdf "passes" = some (.o pf) ∧ jlookup pf "diffuse" = none))) ∨
      (∃ k items itf, (k, JVal.a items) ∈ maps ∧ JVal.o itf ∈ items ∧
         jlookup itf "material" = none)) :
    ∃ e, dict_to_vivy_data (.o rawFields) = .error e := by
  have hget : getItem (.o rawFields) "materials" = .ok (.o mats) := by
    simp [getItem, hm]
  have hget2 : getItem (.o rawFields) "mapping" = .ok (.o maps) := by
    simp [getItem, hp]
  rcases hbad with ⟨k, mdf, hmem, hfield⟩ | ⟨k, items, itf, hmem, hitem, hmissing⟩
  · cases hmats : read_vivy_materials (.o mats) with
    | error e =>
      exact ⟨e, by rw [dict_to_vivy_data, hget, bindE_ok, hmats, bindE_error]⟩
    | ok v => exact absurd hmats (read_vivy_materials_not_ok mats k mdf hmem hfield v)
  · cases hmats : read_vivy_materials (.o mats) with
    | error e =>
      exact ⟨e, by rw [dict_to_vivy_data, hget, bindE_ok, hmats, bindE_error]⟩
    | ok v =>
      cases hmaps : read_vivy_mappings (.o maps) with
      | error e =>
        exact ⟨e, by rw [dict_to_vivy_data, hget, bindE_ok, hmats, bindE_ok, hget2,
                         bindE_ok, hmaps, bindE_error]⟩
      | ok w =>
        exact absurd hmaps
          (read_vivy_mappings_not_ok maps k items itf hmem hitem hmissing w)

/-- Witness for C8: a document whose sole material lacks `desc` fails to
decode as a whole. -/
theorem dict_to_vivy_data_missing_required_witness :
    ∃ e, dict_to_vivy_data (.o
      [("materials", .o [("A", .o [("base_material", .s "x"),
                                   ("passes", .o [("diffuse", .s "D")])])]),
       ("mapping", .o [])]) = .error e :=
  dict_to_vivy_data_missing_required
    [("materials", .o [("A", .o [("base_material", .s "x"),
                                 ("passes", .o [("diffuse", .s "D")])])]),
     ("mapping", .o [])]
    [("A", .o [("base_material", .s "x"), ("passes", .o [("diffuse", .s "D")])])]
    []
    (by decide) (by decide)
    (Or.inl ⟨"A", [("base_material", .s "x"), ("passes", .o [("diffuse", .s "D")])],
      by decide, Or.inr (Or.inl (by decide))⟩)

/-- C9: order preservation of mapping entries.  Decoding: a successful
`read_vivy_mappings` decodes the table pointwise in stored order, and each
name's entry array decodes to one `VivyMapping` per source element, in
source order.  Encoding: `VivyData.dump_json` emits, under `"mapping"`, the
stored table mapped pointwise, each entry list dumped element by element in
stored order. -/
theorem mapping_order_preserved (d : VivyData)
    (maps : List (String × JVal)) (res : List (String × List VivyMapping))
    (items : List JVal) (l : List VivyMapping)
    (houter : read_vivy_mappings (.o maps) = .ok res)
    (hinner : items.mapM read_vivy_mapping = .ok l) :
    (res.length = maps.length ∧
     ∀ i (h₁ : i < maps.length) (h₂ : i < res.length) (k : String) (its : List JVal),
       maps.get ⟨i, h₁⟩ = (k, JVal.a its) →
       ∃ l', its.mapM read_vivy_mapping = .ok l' ∧ res.get ⟨i, h₂⟩ = (k, l')) ∧
    (l.length = items.length ∧
     ∀ i (h₁ : i < items.length) (h₂ : i < l.length),
       read_vivy_mapping (items.get ⟨i, h₁⟩) = .ok (l.get ⟨i, h₂⟩)) ∧
    (jlookup d.dump_json "mapping"
       = some (JVal.o (d.mapping.map
           (fun p => (p.1, JVal.a (p.2.map (fun mp => JVal.o mp.dump_json)))))) ∧
     ∀ (entries : List VivyMapping) (j : Nat),
       (entries.map (fun mp => JVal.o mp.dump_json))[j]?
         = (entries[j]?).map (fun mp => JVal.o mp.dump_json)) := by
  refine ⟨?_, mapM_ok_pointwise _ items l hinner, ?_, ?_⟩
  · rw [read_vivy_mappings] at houter
    obtain ⟨hlen, hpt⟩ := mapM_ok_pointwise _ maps res houter
    refine ⟨hlen, ?_⟩
    intro i h₁ h₂ k its hk
    have hf := hpt i h₁ h₂
    rw [hk] at hf
    change (its.mapM read_vivy_mapping >>= fun l' => pure ((k, JVal.a its).1, l'))
        = Except.ok (res.get ⟨i, h₂⟩) at hf
    cases hl' : its.mapM read_vivy_mapping with
    | error e => rw [hl', bindE_error] at hf; cases hf
    | ok l' =>
      rw [hl', bindE_ok] at hf
      exact ⟨l', rfl, (Except.ok.inj hf).symm⟩
  · simp [VivyData.dump_json, jlookup_cons]
  · intro entries j
    simp

/-- Witness for C9: the second element of a two-element entry array decodes
to the second stored entry. -/
theorem mapping_order_preserved_witness :
    read_vivy_mapping (JVal.o [("material", .s "B"), ("refinement", .s "f")])
      = .ok ⟨.s "B", some (.s "f")⟩ := by
  have h := mapping_order_preserved wData wMaps wRes wItems wEntries
    (by decide) (by decide)
  have h2 := h.2.1.2 1 (by decide) (by decide)
  simpa [wItems, wEntries] using h2

/-- C1 (refuted at the code; the decoder's misspelled presence check for
`reflective` is the cause): dumping a document whose material carries a
present `reflective` refinement and decoding it back drops that refinement,
so `decode (encode d) ≠ d` for this valid `d`. -/
theorem dump_then_decode_drops_reflective :
    dict_to_vivy_data (.o dRefl.dump_json) = .ok dReflDropped ∧
    dReflDropped ≠ dRefl := by
  constructor
  · rfl
  · decide

/-- C2 (refuted at the code): in the source object the key `"reflective"`
is present with value `"X"`, yet the decoded material's `reflective` field
is absent — the presence check reads the misspelled key `"reflecive"`
(vivy_parse.py line 68). -/
theorem read_vivy_material_reflective_dropped :
    jlookup [("reflective", JVal.s "X")] "reflective" = some (.s "X") ∧
    read_vivy_material (.o [("base_material", .s "A"), ("desc", .s "d"),
        ("passes", .o [("diffuse", .s "D")]),
        ("refinements", .o [("reflective", .s "X")])])
      = .ok ⟨.s "A", .s "d", ⟨.s "D", none, none⟩,
             some ⟨none, none, none, none, none, none, none⟩⟩ :=
  ⟨rfl, rfl⟩

/-- C3 (refuted at the code): a refinements object containing only the
unrecognized key `"reflecive"` makes the whole-document decode fail with
`KeyError("reflective")` — the misspelled presence check succeeds and the
decoder then reads the absent correctly-spelled key. -/
theorem dict_to_vivy_data_reflecive_fails :
    dict_to_vivy_data (.o [("materials", .o [("A", .o [("base_material", .s "A"),
        ("desc", .s "d"), ("passes", .o [("diffuse", .s "D")]),
        ("refinements", .o [("reflecive", .s "x")])])]), ("mapping", .o [])])
      = .error (.keyError "reflective") := rfl
